import Mathlib

/-!
Shallow embedding of `color/lightness.py` (luminance, Munsell value and
Lightness conversion formulas) over the real numbers, together with proofs
of the specification claims about it.

Python float arithmetic is embedded as exact real arithmetic: decimal
literals become the corresponding rationals, `math.sqrt` becomes
`Real.sqrt`, and the float power operator becomes `Real.rpow`.  A Python
function that can raise (dictionary lookup miss followed by a call on
`None`) is embedded as a function into `Option`.
-/

namespace Color

noncomputable section

open scoped Classical
open Real

/-- CIE E constant, `216. / 24389.0` in the source. -/
def CIE_E : ℝ := 216 / 24389

/-- CIE K constant, `24389. / 27.0` in the source. -/
def CIE_K : ℝ := 24389 / 27

/-- A 3x2 primaries chromaticity matrix. -/
abbrev Primaries : Type := Fin 3 → Fin 2 → ℝ

/-- A whitepoint chromaticity pair. -/
abbrev Whitepoint : Type := ℝ × ℝ

/-- A 3x3 real matrix, as produced by the primary-matrix deriver. -/
abbrev Matrix3 : Type := Fin 3 → Fin 3 → ℝ

/-- Row-major flattening of a 3x3 matrix, `numpy.ravel` in the source. -/
def ravel (m : Matrix3) (k : Fin 9) : ℝ :=
  m ⟨k.val / 3, by have := k.isLt; omega⟩ ⟨k.val % 3, by have := k.isLt; omega⟩

/-- Modelled from the spec: `color.derivation.get_normalized_primary_matrix` is not
under `src/`; the spec (4.1) gives only its contract
`derive_primary_matrix(primaries, whitepoint) -> 3x3 matrix`, so the deriver is
taken here as an explicit function argument `derive`.  Likewise Python float
formatting inside `"Y = {0}(R) + {1}(G) + {2}(B)".format(...)` is abstracted as an
explicit formatter `fmt`.  This embeds `get_luminance_equation`: it flattens the
derived matrix row-major and splices elements 3, 4, 5 (the `[3:6]` slice) into the
equation template. -/
def get_luminance_equation (derive : Primaries → Whitepoint → Matrix3) (fmt : ℝ → String)
    (primaries : Primaries) (whitepoint : Whitepoint) : String :=
  "Y = " ++ fmt (ravel (derive primaries whitepoint) 3) ++ "(R) + " ++
    fmt (ravel (derive primaries whitepoint) 4) ++ "(G) + " ++
    fmt (ravel (derive primaries whitepoint) 5) ++ "(B)"

/-- Embeds `get_luminance`: unpacks the RGB triplet, takes elements 3, 4, 5 of the
row-major flattened derived matrix (the `[3:6]` slice) and returns the dot
product `X * R + Y * G + Z * B`.  The deriver is passed explicitly, as in
`get_luminance_equation`. -/
def get_luminance (derive : Primaries → Whitepoint → Matrix3) (RGB : Fin 3 → ℝ)
    (primaries : Primaries) (whitepoint : Whitepoint) : ℝ :=
  ravel (derive primaries whitepoint) 3 * RGB 0 +
    ravel (derive primaries whitepoint) 4 * RGB 1 +
    ravel (derive primaries whitepoint) 5 * RGB 2

/-- Embeds `luminance_1943`: the 1943 Newhall, Nickerson, and Judd polynomial. -/
def luminance_1943 (V : ℝ) : ℝ :=
  1.2219 * V - 0.23111 * (V * V) + 0.23951 * V ^ 3 - 0.021009 * V ^ 4 + 0.0008404 * V ^ 5

/-- Embeds `luminance_1976` (the Python default `Yn=100.` is passed explicitly by
callers here): piecewise inverse of the CIE 1976 lightness formula. -/
def luminance_1976 (L : ℝ) (Yn : ℝ) : ℝ :=
  if L > CIE_K * CIE_E then ((L + 16) / 116) ^ (3 : ℝ) * Yn else L / CIE_K * Yn

/-- Embeds `munsell_value_1920`: `Y /= 100.` then `V = 10. * math.sqrt(Y)`. -/
def munsell_value_1920 (Y : ℝ) : ℝ := 10 * Real.sqrt (Y / 100)

/-- Embeds `munsell_value_1933`. -/
def munsell_value_1933 (Y : ℝ) : ℝ := Real.sqrt (1.4742 * Y - 0.004743 * (Y * Y))

/-- Embeds `munsell_value_1943`. -/
def munsell_value_1943 (Y : ℝ) : ℝ := 1.4 * Y ^ (0.426 : ℝ)

/-- Embeds `munsell_value_1944`. -/
def munsell_value_1944 (Y : ℝ) : ℝ := 2.357 * Y ^ (0.343 : ℝ) - 1.52

/-- Embeds `munsell_value_1955`. -/
def munsell_value_1955 (Y : ℝ) : ℝ := 2.468 * Y ^ ((1 : ℝ) / 3) - 1.636

/-- Embeds `lightness_1958`. -/
def lightness_1958 (Y : ℝ) : ℝ := 25.29 * Y ^ ((1 : ℝ) / 3) - 18.38

/-- Embeds `lightness_1964`.  The Python function logs an advisory warning when
`not 1. < Y < 98.` and always computes and returns `25. * (Y ** (1. / 3.)) - 17.`;
the embedding returns the pair (returned value, whether the warning fired). -/
def lightness_1964 (Y : ℝ) : ℝ × Bool :=
  (25 * Y ^ ((1 : ℝ) / 3) - 17, if 1 < Y ∧ Y < 98 then false else true)

/-- Embeds `lightness_1976` (the Python default `Yn=100.` is passed explicitly by
callers here): the piecewise CIE 1976 lightness formula. -/
def lightness_1976 (Y : ℝ) (Yn : ℝ) : ℝ :=
  if Y / Yn ≤ CIE_E then CIE_K * (Y / Yn) else 116 * (Y / Yn) ^ ((1 : ℝ) / 3) - 16

/-- Embeds the `MUNSELL_VALUE_FUNCTIONS` dictionary, as the partial lookup
function `dict.get` gives on it. -/
def MUNSELL_VALUE_FUNCTIONS (method : String) : Option (ℝ → ℝ) :=
  if method = "Munsell Value 1920" then some munsell_value_1920
  else if method = "Munsell Value 1933" then some munsell_value_1933
  else if method = "Munsell Value 1943" then some munsell_value_1943
  else if method = "Munsell Value 1944" then some munsell_value_1944
  else if method = "Munsell Value 1955" then some munsell_value_1955
  else none

/-- Embeds the `LIGHTNESS_FUNCTIONS` dictionary, as the partial lookup function
`dict.get` gives on it.  The stored Python functions are called with the single
argument `Y`, so `lightness_1964` contributes its returned value and
`lightness_1976` is applied at its default `Yn = 100`. -/
def LIGHTNESS_FUNCTIONS (method : String) : Option (ℝ → ℝ) :=
  if method = "Lightness 1958" then some lightness_1958
  else if method = "Lightness 1964" then some (fun Y => (lightness_1964 Y).1)
  else if method = "Lightness 1976" then some (fun Y => lightness_1976 Y 100)
  else none

/-- Embeds `get_munsell_value`: `MUNSELL_VALUE_FUNCTIONS.get(method)(Y)`.  A
lookup miss makes the Python call raise (calling `None`); the embedding returns
`none` in that case. -/
def get_munsell_value (Y : ℝ) (method : String) : Option ℝ :=
  (MUNSELL_VALUE_FUNCTIONS method).map fun f => f Y

/-- Embeds `get_lightness` (the source defines it twice with identical bodies;
the second definition shadows the first, so a single embedding suffices).  `Yn`
is `Option ℝ` to model the Python `None` test; the Python defaults are
`Yn=100.`, `method="Lightness 1976"`. -/
def get_lightness (Y : ℝ) (Yn : Option ℝ) (method : String) : Option ℝ :=
  match Yn with
  | none => (LIGHTNESS_FUNCTIONS method).map fun f => f Y
  | some yn => some (lightness_1976 Y yn)

/-- Spec formula for the 1920 Priest et al. Munsell value,
`V = 10 * sqrt(Y / 100)` (4.4 table), for comparison with the source
embedding. -/
def munsell_value_1920_spec (Y : ℝ) : ℝ := 10 * Real.sqrt (Y / 100)

/-- Spec formula for the 1933 Munsell, Sloan, and Godlove Munsell value,
`V = sqrt(1.4742 * Y - 0.004743 * Y ^ 2)` (4.4 table). -/
def munsell_value_1933_spec (Y : ℝ) : ℝ := Real.sqrt (1.4742 * Y - 0.004743 * Y ^ 2)

/-- Spec formula for the 1943 Moon and Spencer Munsell value,
`V = 1.4 * Y ^ 0.426` (4.4 table). -/
def munsell_value_1943_spec (Y : ℝ) : ℝ := 1.4 * Y ^ (0.426 : ℝ)

/-- Spec formula for the 1944 Saunderson and Milner Munsell value,
`V = 2.357 * Y ^ 0.343 - 1.52` (4.4 table). -/
def munsell_value_1944_spec (Y : ℝ) : ℝ := 2.357 * Y ^ (0.343 : ℝ) - 1.52

/-- Spec formula for the 1955 Ladd and Pinney Munsell value,
`V = 2.468 * Y ^ (1/3) - 1.636` (4.4 table). -/
def munsell_value_1955_spec (Y : ℝ) : ℝ := 2.468 * Y ^ ((1 : ℝ) / 3) - 1.636

/-- The knee ratio `CIE_E` is the cube of `6 / 29`, so its real cube root is
`6 / 29`. -/
lemma CIE_E_rpow_third : CIE_E ^ ((1 : ℝ) / 3) = 6 / 29 := by
  rw [CIE_E, show (216 / 24389 : ℝ) = (6 / 29 : ℝ) ^ (3 : ℕ) by norm_num,
    show (1 : ℝ) / 3 = ((3 : ℕ) : ℝ)⁻¹ by norm_num,
    Real.pow_rpow_inv_natCast (by norm_num) (by norm_num)]

/-- From `x ^ p ≤ b ^ q` (natural powers) deduce `x ^ e ≤ b` for the real
exponent `e = p / q`, for nonnegative `x` and `b`. -/
lemma rpow_le_of_pow_le {x b e : ℝ} {p q : ℕ} (hx : 0 ≤ x) (hb : 0 ≤ b) (hq : q ≠ 0)
    (he : e * (q : ℝ) = (p : ℝ)) (h : x ^ p ≤ b ^ q) : x ^ e ≤ b := by
  have key : (x ^ e) ^ q = x ^ p := by
    rw [← Real.rpow_natCast (x ^ e) q, ← Real.rpow_mul hx, he, Real.rpow_natCast]
  exact (pow_le_pow_iff_left₀ (Real.rpow_nonneg hx e) hb hq).1 (key ▸ h)

/-- From `b ^ q ≤ x ^ p` (natural powers) deduce `b ≤ x ^ e` for the real
exponent `e = p / q`, for nonnegative `x` and `b`. -/
lemma le_rpow_of_pow_le {x b e : ℝ} {p q : ℕ} (hx : 0 ≤ x) (hb : 0 ≤ b) (hq : q ≠ 0)
    (he : e * (q : ℝ) = (p : ℝ)) (h : b ^ q ≤ x ^ p) : b ≤ x ^ e := by
  have key : (x ^ e) ^ q = x ^ p := by
    rw [← Real.rpow_natCast (x ^ e) q, ← Real.rpow_mul hx, he, Real.rpow_natCast]
  exact (pow_le_pow_iff_left₀ hb (Real.rpow_nonneg hx e) hq).1 (by rw [key]; exact h)

/-- Claim C1: with `Yn = None`, `get_lightness` dispatches through
`LIGHTNESS_FUNCTIONS` on whichever `method` key is passed (each registered key
reaching its formula, a miss surfacing as the error case); with `Yn` not `None`
it returns `lightness_1976(Y, Yn)`, ignoring `method` entirely. -/
theorem get_lightness_dispatch (Y yn : ℝ) (method : String) :
    get_lightness Y none method = (LIGHTNESS_FUNCTIONS method).map (fun f => f Y) ∧
    get_lightness Y none "Lightness 1958" = some (lightness_1958 Y) ∧
    get_lightness Y none "Lightness 1964" = some (lightness_1964 Y).1 ∧
    get_lightness Y none "Lightness 1976" = some (lightness_1976 Y 100) ∧
    get_lightness Y (some yn) method = some (lightness_1976 Y yn) := by
  refine ⟨rfl, ?_, ?_, ?_, rfl⟩ <;> rfl

/-- Claim C2: `get_munsell_value` returns the lookup miss (the surfaced error
case, never a silent default) on any method string that is not one of the five
registered keys, and applies the registered formula to `Y` on each registered
key. -/
theorem get_munsell_value_dispatch (Y : ℝ) (method : String)
    (h : method ≠ "Munsell Value 1920" ∧ method ≠ "Munsell Value 1933" ∧
      method ≠ "Munsell Value 1943" ∧ method ≠ "Munsell Value 1944" ∧
      method ≠ "Munsell Value 1955") :
    get_munsell_value Y method = none ∧
    get_munsell_value Y "Munsell Value 1920" = some (munsell_value_1920 Y) ∧
    get_munsell_value Y "Munsell Value 1933" = some (munsell_value_1933 Y) ∧
    get_munsell_value Y "Munsell Value 1943" = some (munsell_value_1943 Y) ∧
    get_munsell_value Y "Munsell Value 1944" = some (munsell_value_1944 Y) ∧
    get_munsell_value Y "Munsell Value 1955" = some (munsell_value_1955 Y) := by
  obtain ⟨h1, h2, h3, h4, h5⟩ := h
  refine ⟨?_, rfl, rfl, rfl, rfl, rfl⟩
  simp [get_munsell_value, MUNSELL_VALUE_FUNCTIONS, h1, h2, h3, h4, h5]

/-- Witness for claim C2 at the spec's concrete unregistered key
`"Munsell Value 1999"`. -/
theorem get_munsell_value_dispatch_witness :
    get_munsell_value 10.08 "Munsell Value 1999" = none :=
  (get_munsell_value_dispatch 10.08 "Munsell Value 1999"
    (by refine ⟨?_, ?_, ?_, ?_, ?_⟩ <;> decide)).1

/-- Claim C6: the two branches of the CIE 1976 lightness formula agree exactly
at the knee `ratio = CIE_E`: both `CIE_K * CIE_E` and
`116 * CIE_E ^ (1/3) - 16` equal `8`, so `lightness_1976` is continuous there
(and takes the value `8` at `Y / Yn = CIE_E`). -/
theorem lightness_1976_knee_continuous :
    CIE_K * CIE_E = 8 ∧ 116 * CIE_E ^ ((1 : ℝ) / 3) - 16 = 8 ∧
    lightness_1976 (CIE_E * 100) 100 = 8 := by
  have h1 : CIE_K * CIE_E = 8 := by rw [CIE_K, CIE_E]; norm_num
  have h2 : 116 * CIE_E ^ ((1 : ℝ) / 3) - 16 = 8 := by rw [CIE_E_rpow_third]; norm_num
  refine ⟨h1, h2, ?_⟩
  rw [lightness_1976, show CIE_E * 100 / 100 = CIE_E by ring, if_pos le_rfl, h1]

/-- Claim C7: whenever `Y` is outside the open interval `(1, 98)`, the advisory
warning fires and `lightness_1964` still returns `25 * Y ^ (1/3) - 17` (the
embedding is a total function: the warning never prevents the value from being
computed and returned). -/
theorem lightness_1964_out_of_range_warns (Y : ℝ) (h : Y ≤ 1 ∨ 98 ≤ Y) :
    (lightness_1964 Y).2 = true ∧ (lightness_1964 Y).1 = 25 * Y ^ ((1 : ℝ) / 3) - 17 := by
  refine ⟨?_, rfl⟩
  rw [lightness_1964]
  simp only
  rw [if_neg]
  rintro ⟨ha, hb⟩
  rcases h with h | h
  · linarith
  · linarith

/-- Witness for claim C7 at the out-of-range input `Y = 100`. -/
theorem lightness_1964_out_of_range_warns_witness :
    (lightness_1964 100).2 = true ∧
      (lightness_1964 100).1 = 25 * (100 : ℝ) ^ ((1 : ℝ) / 3) - 17 :=
  lightness_1964_out_of_range_warns 100 (Or.inr (by norm_num))

/-- Claim C9: `get_luminance` computes exactly `a * R + b * G + c * B` where
`(a, b, c)` are elements 3, 4, 5 of the row-major flattened derived matrix,
i.e. its second row, and these are the very coefficients that
`get_luminance_equation` splices into its equation string — for every deriver,
formatter, RGB triplet, primaries and whitepoint. -/
theorem get_luminance_matches_equation (derive : Primaries → Whitepoint → Matrix3)
    (fmt : ℝ → String) (RGB : Fin 3 → ℝ) (primaries : Primaries) (whitepoint : Whitepoint) :
    get_luminance derive RGB primaries whitepoint =
      derive primaries whitepoint 1 0 * RGB 0 + derive primaries whitepoint 1 1 * RGB 1 +
        derive primaries whitepoint 1 2 * RGB 2 ∧
    get_luminance_equation derive fmt primaries whitepoint =
      "Y = " ++ fmt (derive primaries whitepoint 1 0) ++ "(R) + " ++
        fmt (derive primaries whitepoint 1 1) ++ "(G) + " ++
        fmt (derive primaries whitepoint 1 2) ++ "(B)" :=
  ⟨rfl, rfl⟩

/-- Claim C5: on the documented domain `[0, 100]` the five Munsell-value
functions of the source compute exactly the tabulated closed forms of the
spec. -/
theorem munsell_value_formulas (Y : ℝ) (h0 : 0 ≤ Y) (h100 : Y ≤ 100) :
    munsell_value_1920 Y = munsell_value_1920_spec Y ∧
    munsell_value_1933 Y = munsell_value_1933_spec Y ∧
    munsell_value_1943 Y = munsell_value_1943_spec Y ∧
    munsell_value_1944 Y = munsell_value_1944_spec Y ∧
    munsell_value_1955 Y = munsell_value_1955_spec Y := by
  refine ⟨rfl, ?_, rfl, rfl, rfl⟩
  rw [munsell_value_1933, munsell_value_1933_spec, sq]

/-- Witness for claim C5 at `Y = 64`. -/
theorem munsell_value_formulas_witness :
    munsell_value_1920 64 = munsell_value_1920_spec 64 ∧
    munsell_value_1933 64 = munsell_value_1933_spec 64 ∧
    munsell_value_1943 64 = munsell_value_1943_spec 64 ∧
    munsell_value_1944 64 = munsell_value_1944_spec 64 ∧
    munsell_value_1955 64 = munsell_value_1955_spec 64 :=
  munsell_value_formulas 64 (by norm_num) (by norm_num)

/-- Claim C3: for `Y` in `[0, 100]` and `Yn > 0`, `luminance_1976` is the exact
algebraic inverse of `lightness_1976` over the reals: the round trip recovers
`Y` exactly. -/
theorem luminance_1976_inverts_lightness_1976 (Y Yn : ℝ) (h0 : 0 ≤ Y) (h100 : Y ≤ 100)
    (hn : 0 < Yn) : luminance_1976 (lightness_1976 Y Yn) Yn = Y := by
  have hE0 : (0 : ℝ) ≤ CIE_E := by rw [CIE_E]; norm_num
  have hK0 : (0 : ℝ) < CIE_K := by rw [CIE_K]; norm_num
  have h8 : CIE_K * CIE_E = 8 := by rw [CIE_K, CIE_E]; norm_num
  have hr0 : 0 ≤ Y / Yn := div_nonneg h0 hn.le
  rw [lightness_1976]
  by_cases hc : Y / Yn ≤ CIE_E
  · rw [if_pos hc, luminance_1976, if_neg]
    · field_simp
      ring
    · push_neg
      exact mul_le_mul_of_nonneg_left hc hK0.le
  · rw [if_neg hc, luminance_1976, if_pos]
    · have hcube : ((116 * (Y / Yn) ^ ((1 : ℝ) / 3) - 16 + 16) / 116) ^ (3 : ℝ) = Y / Yn := by
        rw [show (116 * (Y / Yn) ^ ((1 : ℝ) / 3) - 16 + 16) / 116 = (Y / Yn) ^ ((1 : ℝ) / 3)
          by ring, ← Real.rpow_mul hr0, show (1 : ℝ) / 3 * 3 = 1 by norm_num, Real.rpow_one]
      rw [hcube, div_mul_cancel₀ Y hn.ne.symm]
    · have hroot : (6 : ℝ) / 29 < (Y / Yn) ^ ((1 : ℝ) / 3) := by
        rw [← CIE_E_rpow_third]
        exact Real.rpow_lt_rpow hE0 (lt_of_not_le hc) (by norm_num)
      rw [h8]
      nlinarith [hroot]

/-- Witness for claim C3 at `Y = 50`, `Yn = 100`. -/
theorem luminance_1976_inverts_lightness_1976_witness :
    luminance_1976 (lightness_1976 50 100) 100 = 50 :=
  luminance_1976_inverts_lightness_1976 50 100 (by norm_num) (by norm_num) (by norm_num)

/-- Claim C4 counterexample: at the claim's concrete input, the 1943 luminance
polynomial does not return approximately `10.0800` — it is more than `0.3`
away (the source's own doctest documents `10.4089874577` there). -/
theorem luminance_1943_roundtrip_fails :
    0.3 < |luminance_1943 3.74629715382 - 10.08| := by
  have h : (0.3 : ℝ) < luminance_1943 3.74629715382 - 10.08 := by
    rw [luminance_1943]
    norm_num
  exact lt_of_lt_of_le h (le_abs_self _)

/-- Claim C4 (amended): `munsell_value_1943 10.08` is within `1e-6` of
`3.74629715382`, and `luminance_1943 3.74629715382` is within `1e-9` of
`10.4089874577`, the value the source documents: the 1943 luminance polynomial
is a separate empirical fit, not an inverse of the 1943 Munsell-value formula
at this point — it recovers about `10.41`, not `10.08`. -/
theorem munsell_value_1943_luminance_1943_values :
    |munsell_value_1943 10.08 - 3.74629715382| < 1e-6 ∧
    |luminance_1943 3.74629715382 - 10.4089874577| < 1e-9 := by
  constructor
  · have he : (0.426 : ℝ) * ((500 : ℕ) : ℝ) = ((213 : ℕ) : ℝ) := by norm_num
    have hl : (267592653 : ℝ) / 10 ^ 8 ≤ (10.08 : ℝ) ^ (0.426 : ℝ) :=
      le_rpow_of_pow_le (by norm_num) (by norm_num) (by norm_num) he (by norm_num)
    have hu : (10.08 : ℝ) ^ (0.426 : ℝ) ≤ (267592654 : ℝ) / 10 ^ 8 :=
      rpow_le_of_pow_le (by norm_num) (by norm_num) (by norm_num) he (by norm_num)
    rw [munsell_value_1943, abs_lt]
    constructor <;> linarith
  · rw [luminance_1943, abs_lt]
    constructor <;> norm_num

/-- Claim C8 counterexample: at `Y = 0`, inside the documented domain, the 1944
Saunderson and Milner formula returns `-1.52`, outside the documented codomain
`[0, 10]`. -/
theorem munsell_value_1944_below_codomain : munsell_value_1944 0 < 0 := by
  rw [munsell_value_1944, Real.zero_rpow (by norm_num)]
  norm_num

/-- Claim C8 (amended): for `Y` in `[0, 100]` each of the five Munsell-value
formulas stays at or below `10`; the 1920, 1933 and 1943 formulas also stay at
or above `0`, but the 1944 and 1955 formulas dip below `0` near `Y = 0` and are
only bounded below by their constant offsets `-1.52` and `-1.636`. -/
theorem munsell_value_ranges (Y : ℝ) (h0 : 0 ≤ Y) (h100 : Y ≤ 100) :
    (0 ≤ munsell_value_1920 Y ∧ munsell_value_1920 Y ≤ 10) ∧
    (0 ≤ munsell_value_1933 Y ∧ munsell_value_1933 Y ≤ 10) ∧
    (0 ≤ munsell_value_1943 Y ∧ munsell_value_1943 Y ≤ 10) ∧
    (-1.52 ≤ munsell_value_1944 Y ∧ munsell_value_1944 Y ≤ 10) ∧
    (-1.636 ≤ munsell_value_1955 Y ∧ munsell_value_1955 Y ≤ 10) := by
  have h10 : Real.sqrt 100 = 10 := by
    rw [show (100 : ℝ) = 10 ^ 2 by norm_num, Real.sqrt_sq (by norm_num : (0 : ℝ) ≤ 10)]
  refine ⟨⟨?_, ?_⟩, ⟨?_, ?_⟩, ⟨?_, ?_⟩, ⟨?_, ?_⟩, ⟨?_, ?_⟩⟩
  · exact mul_nonneg (by norm_num) (Real.sqrt_nonneg _)
  · rw [munsell_value_1920]
    have hs : Real.sqrt (Y / 100) ≤ 1 := by
      have := Real.sqrt_le_sqrt (show Y / 100 ≤ 1 by linarith)
      rwa [Real.sqrt_one] at this
    linarith
  · exact Real.sqrt_nonneg _
  · rw [munsell_value_1933]
    have hin : 1.4742 * Y - 0.004743 * (Y * Y) ≤ 100 := by nlinarith [sq_nonneg (Y - 100)]
    have := Real.sqrt_le_sqrt hin
    rw [h10] at this
    exact this
  · exact mul_nonneg (by norm_num) (Real.rpow_nonneg h0 _)
  · rw [munsell_value_1943]
    have he : (0.426 : ℝ) * ((500 : ℕ) : ℝ) = ((213 : ℕ) : ℝ) := by norm_num
    have hY : Y ^ (0.426 : ℝ) ≤ (100 : ℝ) ^ (0.426 : ℝ) :=
      Real.rpow_le_rpow h0 h100 (by norm_num)
    have hb : (100 : ℝ) ^ (0.426 : ℝ) ≤ 50 / 7 :=
      rpow_le_of_pow_le (by norm_num) (by norm_num) (by norm_num) he (by norm_num)
    linarith
  · rw [munsell_value_1944]
    have := Real.rpow_nonneg h0 (0.343 : ℝ)
    nlinarith
  · rw [munsell_value_1944]
    have he : (0.343 : ℝ) * ((1000 : ℕ) : ℝ) = ((343 : ℕ) : ℝ) := by norm_num
    have hY : Y ^ (0.343 : ℝ) ≤ (100 : ℝ) ^ (0.343 : ℝ) :=
      Real.rpow_le_rpow h0 h100 (by norm_num)
    have hb : (100 : ℝ) ^ (0.343 : ℝ) ≤ 11520 / 2357 :=
      rpow_le_of_pow_le (by norm_num) (by norm_num) (by norm_num) he (by norm_num)
    linarith
  · rw [munsell_value_1955]
    have := Real.rpow_nonneg h0 ((1 : ℝ) / 3)
    nlinarith
  · rw [munsell_value_1955]
    have he : ((1 : ℝ) / 3) * ((3 : ℕ) : ℝ) = ((1 : ℕ) : ℝ) := by norm_num
    have hY : Y ^ ((1 : ℝ) / 3) ≤ (100 : ℝ) ^ ((1 : ℝ) / 3) :=
      Real.rpow_le_rpow h0 h100 (by norm_num)
    have hb : (100 : ℝ) ^ ((1 : ℝ) / 3) ≤ 11636 / 2468 :=
      rpow_le_of_pow_le (by norm_num) (by norm_num) (by norm_num) he (by norm_num)
    linarith

/-- Witness for the amended claim C8 at `Y = 0`. -/
theorem munsell_value_ranges_witness :
    (0 ≤ munsell_value_1920 0 ∧ munsell_value_1920 0 ≤ 10) ∧
    (0 ≤ munsell_value_1933 0 ∧ munsell_value_1933 0 ≤ 10) ∧
    (0 ≤ munsell_value_1943 0 ∧ munsell_value_1943 0 ≤ 10) ∧
    (-1.52 ≤ munsell_value_1944 0 ∧ munsell_value_1944 0 ≤ 10) ∧
    (-1.636 ≤ munsell_value_1955 0 ∧ munsell_value_1955 0 ≤ 10) :=
  munsell_value_ranges 0 (by norm_num) (by norm_num)

/-- Claim C10: on `0 < Y1 < Y2 ≤ 100` every forward map from luminance to a
perceptual scale is strictly increasing: the five Munsell-value formulas,
`lightness_1958`, the value returned by `lightness_1964`, and, for any fixed
`Yn > 0`, `lightness_1976` — in particular the quadratic under the 1933 square
root is still increasing at `Y = 100`. -/
theorem forward_maps_strict_mono (Y1 Y2 Yn : ℝ) (h1 : 0 < Y1) (h12 : Y1 < Y2)
    (h2 : Y2 ≤ 100) (hn : 0 < Yn) :
    munsell_value_1920 Y1 < munsell_value_1920 Y2 ∧
    munsell_value_1933 Y1 < munsell_value_1933 Y2 ∧
    munsell_value_1943 Y1 < munsell_value_1943 Y2 ∧
    munsell_value_1944 Y1 < munsell_value_1944 Y2 ∧
    munsell_value_1955 Y1 < munsell_value_1955 Y2 ∧
    lightness_1958 Y1 < lightness_1958 Y2 ∧
    (lightness_1964 Y1).1 < (lightness_1964 Y2).1 ∧
    lightness_1976 Y1 Yn < lightness_1976 Y2 Yn := by
  have hE0 : (0 : ℝ) ≤ CIE_E := by rw [CIE_E]; norm_num
  have hK0 : (0 : ℝ) < CIE_K := by rw [CIE_K]; norm_num
  have h8 : CIE_K * CIE_E = 8 := by rw [CIE_K, CIE_E]; norm_num
  have hcube : Y1 ^ ((1 : ℝ) / 3) < Y2 ^ ((1 : ℝ) / 3) :=
    Real.rpow_lt_rpow h1.le h12 (by norm_num)
  refine ⟨?_, ?_, ?_, ?_, ?_, ?_, ?_, ?_⟩
  · rw [munsell_value_1920, munsell_value_1920]
    have := Real.sqrt_lt_sqrt (show (0 : ℝ) ≤ Y1 / 100 by linarith)
      (show Y1 / 100 < Y2 / 100 by linarith)
    linarith
  · rw [munsell_value_1933, munsell_value_1933]
    apply Real.sqrt_lt_sqrt
    · nlinarith
    · nlinarith
  · rw [munsell_value_1943, munsell_value_1943]
    have := Real.rpow_lt_rpow h1.le h12 (show (0 : ℝ) < 0.426 by norm_num)
    linarith
  · rw [munsell_value_1944, munsell_value_1944]
    have := Real.rpow_lt_rpow h1.le h12 (show (0 : ℝ) < 0.343 by norm_num)
    linarith
  · rw [munsell_value_1955, munsell_value_1955]
    linarith
  · rw [lightness_1958, lightness_1958]
    linarith
  · show 25 * Y1 ^ ((1 : ℝ) / 3) - 17 < 25 * Y2 ^ ((1 : ℝ) / 3) - 17
    linarith
  · have hr12 : Y1 / Yn < Y2 / Yn := by gcongr
    have hr10 : 0 < Y1 / Yn := div_pos h1 hn
    rw [lightness_1976, lightness_1976]
    split_ifs with ha hb hb
    · exact mul_lt_mul_of_pos_left hr12 hK0
    · have hroot : (6 : ℝ) / 29 < (Y2 / Yn) ^ ((1 : ℝ) / 3) := by
        rw [← CIE_E_rpow_third]
        exact Real.rpow_lt_rpow hE0 (lt_of_not_le hb) (by norm_num)
      have hlin : CIE_K * (Y1 / Yn) ≤ 8 := by
        calc CIE_K * (Y1 / Yn) ≤ CIE_K * CIE_E := mul_le_mul_of_nonneg_left ha hK0.le
        _ = 8 := h8
      nlinarith [hroot]
    · exact absurd (le_of_lt (lt_of_lt_of_le hr12 hb)) ha
    · have := Real.rpow_lt_rpow hr10.le hr12 (show (0 : ℝ) < 1 / 3 by norm_num)
      linarith

/-- Witness for claim C10 at `Y1 = 1`, `Y2 = 100`, `Yn = 100`. -/
theorem forward_maps_strict_mono_witness :
    munsell_value_1920 1 < munsell_value_1920 100 ∧
    munsell_value_1933 1 < munsell_value_1933 100 ∧
    munsell_value_1943 1 < munsell_value_1943 100 ∧
    munsell_value_1944 1 < munsell_value_1944 100 ∧
    munsell_value_1955 1 < munsell_value_1955 100 ∧
    lightness_1958 1 < lightness_1958 100 ∧
    (lightness_1964 1).1 < (lightness_1964 100).1 ∧
    lightness_1976 1 100 < lightness_1976 100 100 :=
  forward_maps_strict_mono 1 100 100 (by norm_num) (by norm_num) (by norm_num) (by norm_num)

end

end Color
